import Mathlib

/-!
Verification of the stock-search frontend (`src/App.tsx`) against its
specification.  The component is embedded shallowly: React `useState`
variables become fields of `AppState`, event handlers and `useEffect`
bodies become pure functions on `AppState`, and in-flight HTTP requests
are tracked as lists of tagged pending requests.  Promise resolution is a
separate event (`resolvePrice` / `resolveAi`) applying exactly the state
updates the source's `.then/.catch/.finally` chain performs.
-/

namespace StockApp

/-- `interface Stock { Symbol; Security; Market }` from `App.tsx`. -/
structure Stock where
  Symbol : String
  Security : String
  Market : String
deriving DecidableEq, Repr

/-- One entry of the AI forecast: `{ date: string; price: number }`. -/
structure AiEntry where
  date : String
  price : Int
deriving DecidableEq, Repr

/-- `interface AiResult { forecast; summary }` from `App.tsx`. -/
structure AiResult where
  forecast : List AiEntry
  summary : String
deriving DecidableEq, Repr

/-- `getUnit`: `(market === 'KOSPI' || market === 'KOSDAQ') ? '원' : '달러'`. -/
def getUnit (market : String) : String :=
  if market == "KOSPI" || market == "KOSDAQ" then "원" else "달러"

/-- Drops one leading slash character from a character list (the list is
the reversed URL, so this models `replace(/\/$/, '')`). -/
def dropLeadingSlash (l : List Char) : List Char :=
  match l with
  | [] => []
  | c :: t => if c = '/' then t else c :: t

/-- `apiUrl.replace(/\/$/, '')`: strip a single trailing slash. -/
def stripTrailingSlash (s : String) : String :=
  String.mk (dropLeadingSlash s.data.reverse).reverse

/-- Whether a character list starts with a slash. -/
def headIsSlash (l : List Char) : Bool :=
  match l with
  | [] => false
  | c :: _ => c == '/'

/-- Whether a character list starts with two slashes. -/
def twoSlashes (l : List Char) : Bool :=
  match l with
  | c1 :: c2 :: _ => c1 == '/' && c2 == '/'
  | _ => false

/-- Whether a string ends with a slash. -/
def endsWithSlash (s : String) : Bool :=
  headIsSlash s.data.reverse

/-- `getApiUrl` from `App.tsx`.  The module constant
`import.meta.env.VITE_API_URL` is modelled as an `Option String`
configuration argument; `none` is JS `undefined`, and the source also
treats the empty string (falsy) and the literal string `"undefined"` as
absent. -/
def getApiUrl (apiUrl : Option String) (path : String) : String :=
  match apiUrl with
  | none => path
  | some u => if u == "" || u == "undefined" then path
              else stripTrailingSlash u ++ path

/-- `line.replace(/\r/g, '')`: remove every carriage return. -/
def stripCR (s : String) : String :=
  String.mk (s.data.filter (fun c => c != '\r'))

/-- The body of `parseCSV`'s `.map` callback: strip CRs, split on commas,
return `null` (here `none`) when fewer than 3 fields are present. -/
def parseLine (line : String) : Option Stock :=
  let cols := (stripCR line).splitOn ","
  if cols.length < 3 then none
  else some { Symbol := cols.getD 0 ""
            , Security := cols.getD 1 ""
            , Market := cols.getD 2 "" }

/-- `parseCSV` from `App.tsx`: split on newlines, drop the header line,
map each line to a `Stock` or `null`, then `.filter(Boolean)` and cast. -/
def parseCSV (csv : String) : List Stock :=
  let lines := csv.splitOn "\n"
  (((lines.drop 1).map parseLine).filter (fun o => o.isSome)).filterMap id

/-- The catalog-load effect: `setAllStocks([...parseCSV(us), ...])`
concatenating the four sources in the written order. -/
def loadCatalog (us ko nyse kosdaq : String) : List Stock :=
  parseCSV us ++ parseCSV ko ++ parseCSV nyse ++ parseCSV kosdaq

/-- Bool-valued contiguous-sublist test on character lists, the embedding
of JS `String.prototype.includes`. -/
def isSubList (needle : List Char) : List Char → Bool
  | [] => needle.isEmpty
  | c :: t => needle.isPrefixOf (c :: t) || isSubList needle t

/-- The search `useEffect` body as a pure function: empty query gives the
empty list; otherwise filter the catalog by case-insensitive substring
containment in `Symbol` or `Security` and keep the first 20 matches. -/
def searchStocks (allStocks : List Stock) (query : String) : List Stock :=
  if query = "" then []
  else (allStocks.filter (fun s =>
          isSubList query.toLower.data s.Symbol.toLower.data ||
          isSubList query.toLower.data s.Security.toLower.data)).take 20

/-- Outcome of one HTTP fetch as the promise chain sees it: a transport
failure, or a response with its `res.ok` flag and decoded body. -/
inductive FetchOutcome (α : Type) where
  | networkError : FetchOutcome α
  | httpResponse (ok : Bool) (body : α) : FetchOutcome α
deriving DecidableEq, Repr

/-- The value the `.then/.catch` chain delivers: the body on an `ok`
response, otherwise `null` (the `!res.ok` throw and the transport error
both land in `.catch(() => set…(null))`). -/
def FetchOutcome.value : FetchOutcome α → Option α
  | .networkError => none
  | .httpResponse ok body => if ok then some body else none

/-- Whether the outcome is a failure (transport error or non-2xx). -/
def FetchOutcome.failed : FetchOutcome α → Bool
  | .networkError => true
  | .httpResponse ok _ => !ok

/-- The component's state: one field per `useState` variable, plus the
multiset of in-flight requests of each pipeline, tagged with the
`Stock` they were dispatched for. -/
structure AppState where
  query : String
  results : List Stock
  selected : Option Stock
  allStocks : List Stock
  latestPrice : Option Int
  aiResult : Option AiResult
  loadingPrice : Bool
  loadingAi : Bool
  pendingPrice : List Stock
  pendingAi : List Stock
deriving DecidableEq, Repr

/-- The initial `useState` values: empty query, empty lists, `null`
selection and values, both loading flags `false`. -/
def initState : AppState :=
  { query := "", results := [], selected := none, allStocks := []
  , latestPrice := none, aiResult := none
  , loadingPrice := false, loadingAi := false
  , pendingPrice := [], pendingAi := [] }

/-- The catalog-load resolution: `setAllStocks(rows)`, after which the
search effect reruns (its dependency `allStocks` changed). -/
def setCatalog (rows : List Stock) (s : AppState) : AppState :=
  { s with allStocks := rows, results := searchStocks rows s.query }

/-- The selection `useEffect` body (lines 89-105 of `App.tsx`), run when
the `selected` dependency changes.  With no selection it nulls both
values and returns; with a selection it sets the price loading flag,
nulls the price, and dispatches the price request tagged with the
selected stock.  It touches neither AI field and dispatches no AI
request. -/
def selectionEffect (s : AppState) : AppState :=
  match s.selected with
  | none => { s with latestPrice := none, aiResult := none }
  | some st => { s with loadingPrice := true
                      , latestPrice := none
                      , pendingPrice := s.pendingPrice ++ [st] }

/-- The query input's `onChange` handler plus the effects it triggers:
`setQuery(v); setSelected(null)`, then the search effect recomputes
`results`, and — when a selection was active, so that the `selected`
dependency changed — the selection effect runs on the now-empty
selection. -/
def editQuery (v : String) (s : AppState) : AppState :=
  let s2 : AppState :=
    { s with query := v, selected := none
           , results := searchStocks s.allStocks v }
  if s.selected = none then s2 else selectionEffect s2

/-- A click on a result entry: `setSelected(stock)` followed by the
selection effect (the result list is only rendered while nothing is
selected, so the dependency always changed). -/
def selectStock (st : Stock) (s : AppState) : AppState :=
  selectionEffect { s with selected := some st }

/-- `handleAiAnalyze`: no-op without a selection; otherwise set the AI
loading flag, null the AI result, and dispatch the AI request tagged
with the selected stock. -/
def handleAiAnalyze (s : AppState) : AppState :=
  match s.selected with
  | none => s
  | some st => { s with loadingAi := true
                      , aiResult := none
                      , pendingAi := s.pendingAi ++ [st] }

/-- Resolution of a pending price request tagged `st`.  The handlers run
unconditionally — the source compares nothing against the current
selection: `setLatestPrice` receives the outcome's value and `.finally`
clears the loading flag. -/
def resolvePrice (st : Stock) (o : FetchOutcome Int) (s : AppState) : AppState :=
  { s with pendingPrice := s.pendingPrice.erase st
         , latestPrice := o.value
         , loadingPrice := false }

/-- Resolution of a pending AI request tagged `st`; same unconditional
shape as the price pipeline. -/
def resolveAi (st : Stock) (o : FetchOutcome AiResult) (s : AppState) : AppState :=
  { s with pendingAi := s.pendingAi.erase st
         , aiResult := o.value
         , loadingAi := false }

/-- Mapping a line parser over lines, keeping the `isSome` entries and
extracting them, is the same as `filterMap`-ing the parser. -/
theorem map_filter_isSome_eq_filterMap (f : String → Option Stock) (l : List String) :
    ((l.map f).filter (fun o => o.isSome)).filterMap id = l.filterMap f := by
  induction l with
  | nil => rfl
  | cons a t ih =>
    cases h : f a <;> simp [h, ih]

end StockApp

namespace StockApp

/-- C3: for every catalog and non-empty query, every stock in the search
result contains the lowercased query as a substring of its lowercased
symbol or name, the result has at most 20 elements, and the elements
appear in catalog order (the result is a sublist of the catalog). -/
theorem search_matches_bounded_ordered (catalog : List Stock) (q : String)
    (hq : q ≠ "") :
    (∀ s ∈ searchStocks catalog q,
        isSubList q.toLower.data s.Symbol.toLower.data = true ∨
        isSubList q.toLower.data s.Security.toLower.data = true) ∧
    (searchStocks catalog q).length ≤ 20 ∧
    List.Sublist (searchStocks catalog q) catalog := by
  unfold searchStocks
  rw [if_neg hq]
  refine ⟨?_, ?_, ?_⟩
  · intro s hs
    have hs' := List.mem_of_mem_take hs
    have hp := (List.mem_filter.mp hs').2
    rcases Bool.or_eq_true_iff.mp hp with h | h
    · exact Or.inl h
    · exact Or.inr h
  · exact List.length_take_le 20 _
  · exact (List.take_sublist _ _).trans (List.filter_sublist _)

/-- C3 witness: a concrete catalog and query. -/
theorem search_matches_bounded_ordered_witness :
    (∀ s ∈ searchStocks
        [⟨"AAPL", "Apple Inc.", "NASDAQ"⟩, ⟨"005930", "Samsung Electronics", "KOSPI"⟩] "app",
        isSubList "app".toLower.data s.Symbol.toLower.data = true ∨
        isSubList "app".toLower.data s.Security.toLower.data = true) ∧
    (searchStocks
        [⟨"AAPL", "Apple Inc.", "NASDAQ"⟩, ⟨"005930", "Samsung Electronics", "KOSPI"⟩] "app").length ≤ 20 ∧
    List.Sublist (searchStocks
        [⟨"AAPL", "Apple Inc.", "NASDAQ"⟩, ⟨"005930", "Samsung Electronics", "KOSPI"⟩] "app")
      [⟨"AAPL", "Apple Inc.", "NASDAQ"⟩, ⟨"005930", "Samsung Electronics", "KOSPI"⟩] :=
  search_matches_bounded_ordered _ "app" (by decide)

/-- C6: for every catalog, the empty query yields the empty result set. -/
theorem empty_query_empty_results (catalog : List Stock) :
    searchStocks catalog "" = [] := by
  simp [searchStocks]

/-- C7: parsing discards the header line and `filterMap`s the remaining
lines through the row parser; a row parses to nothing exactly when, after
stripping carriage returns and splitting on commas, it has fewer than 3
fields; and the loaded catalog is the concatenation of the four sources'
parses in source order. -/
theorem parse_drops_header_and_short_rows (csv line us ko nyse kosdaq : String) :
    parseCSV csv = ((csv.splitOn "\n").drop 1).filterMap parseLine ∧
    (parseLine line = none ↔ ((stripCR line).splitOn ",").length < 3) ∧
    loadCatalog us ko nyse kosdaq =
      parseCSV us ++ parseCSV ko ++ parseCSV nyse ++ parseCSV kosdaq := by
  refine ⟨map_filter_isSome_eq_filterMap parseLine _, ?_, rfl⟩
  unfold parseLine
  by_cases h : ((stripCR line).splitOn ",").length < 3 <;> simp [h]

/-- C8: the display unit is a total function of the market string alone,
with exactly two outcomes: `원` for KOSPI/KOSDAQ and `달러` otherwise. -/
theorem getUnit_two_outcomes (m : String) :
    ((m = "KOSPI" ∨ m = "KOSDAQ") → getUnit m = "원") ∧
    (¬(m = "KOSPI" ∨ m = "KOSDAQ") → getUnit m = "달러") ∧
    (getUnit m = "원" ∨ getUnit m = "달러") := by
  unfold getUnit
  by_cases h1 : m = "KOSPI" <;> by_cases h2 : m = "KOSDAQ" <;> simp [h1, h2]

/-- C8 witness: a KOSPI market and a non-Korean market at concrete inputs. -/
theorem getUnit_two_outcomes_witness :
    getUnit "KOSPI" = "원" ∧ getUnit "NYSE" = "달러" :=
  ⟨(getUnit_two_outcomes "KOSPI").1 (Or.inl rfl),
   (getUnit_two_outcomes "NYSE").2.1 (by decide)⟩

/-- C9: with no configured base URL the request URL is the relative path
unchanged; with a configured base it is the base with a single trailing
slash stripped, concatenated with the path; and when the base does not
end in a double slash, the stripped base never ends in a slash, so the
junction with a `/`-leading path produces no double slash. -/
theorem apiUrl_join_no_double_slash (path u : String) :
    getApiUrl none path = path ∧
    ((u == "" || u == "undefined") = false →
        getApiUrl (some u) path = stripTrailingSlash u ++ path) ∧
    (twoSlashes u.data.reverse = false →
        endsWithSlash (stripTrailingSlash u) = false) := by
  refine ⟨rfl, ?_, ?_⟩
  · intro h
    simp [getApiUrl, h]
  · intro h
    unfold endsWithSlash stripTrailingSlash
    cases hrev : u.data.reverse with
    | nil => simp [dropLeadingSlash, headIsSlash]
    | cons c t =>
      by_cases hc : c = '/'
      · subst hc
        cases t with
        | nil => simp [dropLeadingSlash, headIsSlash]
        | cons c2 t2 =>
          have hc2 : (c2 == '/') = false := by
            by_contra hne
            have : c2 = '/' := by
              cases hb : c2 == '/'
              · exact absurd hb hne
              · exact eq_of_beq hb
            subst this
            simp [twoSlashes, hrev] at h
          simp [dropLeadingSlash, headIsSlash, hc2]
      · have hcb : (c == '/') = false := by
          cases hb : c == '/'
          · rfl
          · exact absurd (eq_of_beq hb) hc
        simp [dropLeadingSlash, headIsSlash, hc, hcb]

/-- A concrete US-market security for traces. -/
def aapl : Stock := ⟨"AAPL", "Apple Inc.", "NASDAQ"⟩

/-- A concrete Korean-market security for traces. -/
def samsung : Stock := ⟨"005930", "Samsung Electronics", "KOSPI"⟩

/-- A two-entry catalog for traces. -/
def demoCatalog : List Stock := [aapl, samsung]

/-- Trace for C1: load catalog, search and select AAPL (price fetch for
AAPL dispatched), edit the query (deselect), select Samsung (its fetch
dispatched too), then AAPL's late response resolves with close 185. -/
def staleTrace : AppState :=
  resolvePrice aapl (FetchOutcome.httpResponse true 185)
    (selectStock samsung
      (editQuery "sam"
        (selectStock aapl
          (editQuery "a" (setCatalog demoCatalog initState)))))

/-- Trace for C2: select AAPL, start an AI analysis for it, edit the
query (deselect), then select Samsung — a transition into `Selected`
with a new security while an AI fetch is still in flight. -/
def reselectTrace : AppState :=
  selectStock samsung
    (editQuery "sam"
      (handleAiAnalyze
        (selectStock aapl
          (editQuery "a" (setCatalog demoCatalog initState)))))

/-- C1: evaluation of the code at the failing trace.  After Samsung is
selected with its own price fetch still pending, AAPL's late response is
NOT discarded: it overwrites the displayed price with AAPL's close and
forces the loading flag to false.  The spec requires both to be left
unchanged (response discarded). -/
theorem stale_response_applied_not_discarded :
    staleTrace.selected = some samsung ∧
    staleTrace.pendingPrice = [samsung] ∧
    staleTrace.latestPrice = some 185 ∧
    staleTrace.loadingPrice = false := by
  decide

/-- C2 counterexample: on the transition into `Selected` with the new
security Samsung, the AI FetchState is not reset (its loading flag is
still true from AAPL's in-flight analysis) and no AI fetch for Samsung
is begun (the only pending AI request is still AAPL's) — refuting the
claim that both FetchStates are reset and both fetches begun. -/
theorem select_new_security_leaves_ai_untouched :
    reselectTrace.selected = some samsung ∧
    reselectTrace.loadingAi = true ∧
    reselectTrace.pendingAi = [aapl] := by
  decide

/-- C2 amended: on every transition into `Selected` (triggered by every
selection change, not gated by symbol+market identity), the price
FetchState is set to loading:true / value:null and the price fetch is
dispatched for the new security, while the AI FetchState and the AI
pending requests are left entirely unchanged — the AI fetch starts only
from the explicit analyze action. -/
theorem select_resets_price_only (s : AppState) (st : Stock) :
    (selectStock st s).selected = some st ∧
    (selectStock st s).loadingPrice = true ∧
    (selectStock st s).latestPrice = none ∧
    (selectStock st s).pendingPrice = s.pendingPrice ++ [st] ∧
    (selectStock st s).loadingAi = s.loadingAi ∧
    (selectStock st s).aiResult = s.aiResult ∧
    (selectStock st s).pendingAi = s.pendingAi := by
  simp [selectStock, selectionEffect]

/-- C4: resolving a fetch always clears that pipeline's loading flag,
any failure (transport error or non-2xx response) collapses the value to
null, and a non-2xx response produces exactly the same state as a
transport-level failure. -/
theorem failure_collapses_to_null (st : Stock) (o : FetchOutcome Int)
    (o2 : FetchOutcome AiResult) (b : Int) (s : AppState) :
    (resolvePrice st o s).loadingPrice = false ∧
    (resolveAi st o2 s).loadingAi = false ∧
    (o.failed = true → (resolvePrice st o s).latestPrice = none) ∧
    (o2.failed = true → (resolveAi st o2 s).aiResult = none) ∧
    resolvePrice st (FetchOutcome.httpResponse false b) s =
      resolvePrice st FetchOutcome.networkError s := by
  refine ⟨rfl, rfl, ?_, ?_, ?_⟩
  · cases o with
    | networkError => intro _; rfl
    | httpResponse ok body =>
      intro h
      have hok : ok = false := by
        cases ok
        · rfl
        · exact absurd h (by simp [FetchOutcome.failed])
      subst hok
      rfl
  · cases o2 with
    | networkError => intro _; rfl
    | httpResponse ok body =>
      intro h
      have hok : ok = false := by
        cases ok
        · rfl
        · exact absurd h (by simp [FetchOutcome.failed])
      subst hok
      rfl
  · rfl

/-- C4 witness: a transport failure and a non-2xx response at concrete
inputs. -/
theorem failure_collapses_to_null_witness :
    (resolvePrice aapl FetchOutcome.networkError initState).loadingPrice = false ∧
    (resolvePrice aapl FetchOutcome.networkError initState).latestPrice = none ∧
    (resolveAi aapl (FetchOutcome.httpResponse false ⟨[], ""⟩) initState).aiResult = none :=
  ⟨(failure_collapses_to_null aapl FetchOutcome.networkError
      (FetchOutcome.httpResponse false ⟨[], ""⟩) 0 initState).1,
   (failure_collapses_to_null aapl FetchOutcome.networkError
      (FetchOutcome.httpResponse false ⟨[], ""⟩) 0 initState).2.2.1 rfl,
   (failure_collapses_to_null aapl FetchOutcome.networkError
      (FetchOutcome.httpResponse false ⟨[], ""⟩) 0 initState).2.2.2.1 rfl⟩

/-- C5: while a selection is active, editing the query — with any new
string, including a non-empty one — clears the selection to none, and
the result set shown afterwards is the search of the new query. -/
theorem edit_clears_selection (s : AppState) (v : String) (a : Stock)
    (h : s.selected = some a) :
    (editQuery v s).selected = none ∧
    (editQuery v s).results = searchStocks s.allStocks v := by
  unfold editQuery
  rw [if_neg (by simp [h])]
  simp [selectionEffect]

/-- C5 witness: editing to another non-empty query while AAPL is
selected. -/
theorem edit_clears_selection_witness :
    (editQuery "sam" (selectStock aapl (editQuery "a" (setCatalog demoCatalog initState)))).selected = none ∧
    (editQuery "sam" (selectStock aapl (editQuery "a" (setCatalog demoCatalog initState)))).results =
      searchStocks (selectStock aapl (editQuery "a" (setCatalog demoCatalog initState))).allStocks "sam" :=
  edit_clears_selection _ "sam" aapl (by decide)

/-- C10: when the selection effect runs with no selection (deselect or
query cleared), it exactly nulls the price and AI values and changes
nothing else: the loading flags, query, results, catalog and both
pending-request lists are untouched and no fetch is dispatched. -/
theorem deselect_nulls_values_only (s : AppState) (h : s.selected = none) :
    selectionEffect s = { s with latestPrice := none, aiResult := none } := by
  simp [selectionEffect, h]

/-- C10 witness: a deselected state with a price fetch still in flight;
the loading flag and the pending request survive, only the values are
nulled. -/
theorem deselect_nulls_values_only_witness :
    selectionEffect
      { initState with loadingPrice := true, pendingPrice := [aapl], latestPrice := some 5 } =
    { initState with loadingPrice := true, pendingPrice := [aapl], latestPrice := none } :=
  deselect_nulls_values_only
    { initState with loadingPrice := true, pendingPrice := [aapl], latestPrice := some 5 } rfl

/-- C9 witness: a concrete slash-terminated base and a concrete path. -/
theorem apiUrl_join_no_double_slash_witness :
    getApiUrl none "/api/price" = "/api/price" ∧
    getApiUrl (some "http://localhost:8000/") "/api/price" =
      stripTrailingSlash "http://localhost:8000/" ++ "/api/price" ∧
    endsWithSlash (stripTrailingSlash "http://localhost:8000/") = false :=
  ⟨(apiUrl_join_no_double_slash "/api/price" "x").1,
   (apiUrl_join_no_double_slash "/api/price" "http://localhost:8000/").2.1 (by decide),
   (apiUrl_join_no_double_slash "/api/price" "http://localhost:8000/").2.2 (by decide)⟩

end StockApp
